import Mathlib

/-!
Verification of the resource-metering and pricing engine
(`linera-execution/src/policy.rs`).

The `Amount` type comes from `linera-base`, which is not part of the
sources at hand; it is modelled from the specification as an unsigned
128-bit fixed-point quantity counted in atto-units, with checked
addition, checked multiplication by a scalar, and saturating division.
All other definitions are direct translations of `policy.rs`.
-/

namespace LineraPolicy

/-- Number of values representable by an unsigned 128-bit integer. -/
def U128_SIZE : Nat := 2 ^ 128

/-- Largest unsigned 64-bit value. -/
def U64_MAX : Nat := 2 ^ 64 - 1

/-- Modelled from the spec: the monetary `Amount` of `linera-base` (not under
the given sources) is an opaque non-negative fixed-point quantity,
conceptually an unsigned integer counted in atto-units, with 128 bits of
representable range. -/
structure Amount where
  val : Nat
  lt : val < U128_SIZE

theorem Amount.val_injective (a b : Amount) (h : a.val = b.val) : a = b := by
  cases a; cases b; simpa using h

instance : DecidableEq Amount := fun a b =>
  if h : a.val = b.val then .isTrue (Amount.val_injective a b h)
  else .isFalse (fun hab => h (congrArg Amount.val hab))

instance exceptDecEq {ε α : Type} [DecidableEq ε] [DecidableEq α] :
    DecidableEq (Except ε α) := fun x y =>
  match x, y with
  | .ok a, .ok b =>
    if h : a = b then .isTrue (by rw [h]) else .isFalse (by simp [h])
  | .error a, .error b =>
    if h : a = b then .isTrue (by rw [h]) else .isFalse (by simp [h])
  | .ok _, .error _ => .isFalse (by simp)
  | .error _, .ok _ => .isFalse (by simp)

/-- Modelled from the spec: the arithmetic error of `linera-base`; the single
failure mode is overflow of the representable range. -/
inductive ArithmeticError where
  | Overflow
deriving DecidableEq

/-- Modelled from the spec: checked multiplication of an `Amount` by a
non-negative integer scalar; fails explicitly when the product exceeds the
representable range. -/
def Amount.try_mul (a : Amount) (n : Nat) : Except ArithmeticError Amount :=
  if h : a.val * n < U128_SIZE then .ok ⟨a.val * n, h⟩ else .error .Overflow

/-- Modelled from the spec: checked addition of two `Amount`s; fails
explicitly when the sum exceeds the representable range. -/
def Amount.try_add (a b : Amount) : Except ArithmeticError Amount :=
  if h : a.val + b.val < U128_SIZE then .ok ⟨a.val + b.val, h⟩ else .error .Overflow

/-- Modelled from the spec: saturating division of one `Amount` by another,
returning the raw 128-bit quotient; a zero divisor yields the maximal
representable 128-bit value instead of failing (zero-cost fuel is treated
as effectively unlimited). -/
def Amount.saturating_div (a b : Amount) : Nat :=
  if b.val = 0 then U128_SIZE - 1 else a.val / b.val

/-- Modelled from the spec: the default `Amount` is the zero/minimum value. -/
def Amount.default : Amount := ⟨0, by decide⟩

/-- Modelled from the spec: conversion of a 128-bit quotient to a 64-bit
count, as Rust's fallible conversion: succeeds exactly when the value fits. -/
def u64_try_from (n : Nat) : Option Nat :=
  if n ≤ U64_MAX then some n else none

/-- An operation, classified as in the source: the system variant has no
payload-dependent cost, the user variant carries a byte payload. -/
inductive Operation where
  | System
  | User (bytes : List (Fin 256))

/-- A message, classified as in the source: system variant versus user
variant with a byte payload. -/
inductive Message where
  | System
  | User (bytes : List (Fin 256))

/-- A collection of prices and limits associated with block execution
(`ResourceControlPolicy` of `policy.rs`). The two limit fields are plain
unsigned 64-bit counts. -/
structure ResourceControlPolicy where
  block : Amount
  fuel_unit : Amount
  read_operation : Amount
  byte_read : Amount
  byte_written : Amount
  byte_stored : Amount
  operation : Amount
  operation_byte : Amount
  message : Amount
  message_byte : Amount
  maximum_bytes_read_per_block : Nat
  maximum_bytes_written_per_block : Nat

/-- `impl Default for ResourceControlPolicy`: all prices default to the
default `Amount`, both limits default to `u64::MAX`. -/
def ResourceControlPolicy.default : ResourceControlPolicy where
  block := Amount.default
  fuel_unit := Amount.default
  read_operation := Amount.default
  byte_read := Amount.default
  byte_written := Amount.default
  byte_stored := Amount.default
  operation := Amount.default
  operation_byte := Amount.default
  message := Amount.default
  message_byte := Amount.default
  maximum_bytes_read_per_block := U64_MAX
  maximum_bytes_written_per_block := U64_MAX

/-- `PricingError`: a thin wrapper around the arithmetic error. -/
inductive PricingError where
  | ArithmeticError (e : ArithmeticError)
deriving DecidableEq

/-- `ResourceControlPolicy::block_price`. -/
def ResourceControlPolicy.block_price (self : ResourceControlPolicy) : Amount :=
  self.block

/-- `ResourceControlPolicy::operation_price`. -/
def ResourceControlPolicy.operation_price (self : ResourceControlPolicy)
    (operation : Operation) : Except PricingError Amount :=
  match operation with
  | .System => .ok self.operation
  | .User bytes =>
    let size := bytes.length
    match self.operation_byte.try_mul size with
    | .error e => .error (PricingError.ArithmeticError e)
    | .ok x =>
      match x.try_add self.operation with
      | .error e => .error (PricingError.ArithmeticError e)
      | .ok price => .ok price

/-- `ResourceControlPolicy::message_price`. -/
def ResourceControlPolicy.message_price (self : ResourceControlPolicy)
    (message : Message) : Except PricingError Amount :=
  match message with
  | .System => .ok self.message
  | .User bytes =>
    let size := bytes.length
    match self.message_byte.try_mul size with
    | .error e => .error (PricingError.ArithmeticError e)
    | .ok x =>
      match x.try_add self.message with
      | .error e => .error (PricingError.ArithmeticError e)
      | .ok price => .ok price

/-- `ResourceControlPolicy::storage_num_reads_price`. -/
def ResourceControlPolicy.storage_num_reads_price (self : ResourceControlPolicy)
    (count : Nat) : Except PricingError Amount :=
  match self.read_operation.try_mul count with
  | .error e => .error (PricingError.ArithmeticError e)
  | .ok price => .ok price

/-- `ResourceControlPolicy::storage_bytes_read_price`. -/
def ResourceControlPolicy.storage_bytes_read_price (self : ResourceControlPolicy)
    (count : Nat) : Except PricingError Amount :=
  match self.byte_read.try_mul count with
  | .error e => .error (PricingError.ArithmeticError e)
  | .ok price => .ok price

/-- `ResourceControlPolicy::storage_bytes_written_price`. -/
def ResourceControlPolicy.storage_bytes_written_price (self : ResourceControlPolicy)
    (count : Nat) : Except PricingError Amount :=
  match self.byte_written.try_mul count with
  | .error e => .error (PricingError.ArithmeticError e)
  | .ok price => .ok price

/-- `ResourceControlPolicy::storage_bytes_stored_price`. -/
def ResourceControlPolicy.storage_bytes_stored_price (self : ResourceControlPolicy)
    (count : Nat) : Except PricingError Amount :=
  match self.byte_stored.try_mul count with
  | .error e => .error (PricingError.ArithmeticError e)
  | .ok price => .ok price

/-- `ResourceControlPolicy::fuel_price`. -/
def ResourceControlPolicy.fuel_price (self : ResourceControlPolicy)
    (fuel : Nat) : Except PricingError Amount :=
  match self.fuel_unit.try_mul fuel with
  | .error e => .error (PricingError.ArithmeticError e)
  | .ok price => .ok price

/-- `ResourceControlPolicy::remaining_fuel`: how much fuel can be paid with
the given balance. -/
def ResourceControlPolicy.remaining_fuel (self : ResourceControlPolicy)
    (balance : Amount) : Nat :=
  (u64_try_from (balance.saturating_div self.fuel_unit)).getD U64_MAX

/-- Written from the spec's words, for comparison with the source functions:
the price of a user-variant payload of `n` bytes is
`byte_price * n + base`, failing exactly when that quantity exceeds the
representable range of `Amount`. -/
def spec_linear_price (byte_price base : Amount) (n : Nat) :
    Except PricingError Amount :=
  if h : byte_price.val * n + base.val < U128_SIZE then
    .ok ⟨byte_price.val * n + base.val, h⟩
  else .error (PricingError.ArithmeticError .Overflow)

/-- Written from the spec's words, for comparison with the source functions:
a per-count price is `price * count`, checked. -/
def spec_mul_price (price : Amount) (count : Nat) : Except PricingError Amount :=
  if h : price.val * count < U128_SIZE then
    .ok ⟨price.val * count, h⟩
  else .error (PricingError.ArithmeticError .Overflow)

theorem try_mul_then_add_eq_spec (bp base : Amount) (n : Nat) :
    (match bp.try_mul n with
     | .error e => .error (PricingError.ArithmeticError e)
     | .ok x =>
       match x.try_add base with
       | .error e => .error (PricingError.ArithmeticError e)
       | .ok price => (.ok price : Except PricingError Amount)) =
      spec_linear_price bp base n := by
  unfold Amount.try_mul Amount.try_add spec_linear_price
  by_cases h1 : bp.val * n < U128_SIZE
  · by_cases h2 : bp.val * n + base.val < U128_SIZE
    · simp only [dif_pos h1]
      dsimp only
      simp only [dif_pos h2]
    · simp only [dif_pos h1]
      dsimp only
      simp only [dif_neg h2]
  · have h2 : ¬ bp.val * n + base.val < U128_SIZE :=
      fun h2 => h1 (lt_of_le_of_lt (Nat.le_add_right _ _) h2)
    simp only [dif_neg h1, dif_neg h2]

theorem try_mul_wrapped_eq_spec (price : Amount) (count : Nat) :
    (match price.try_mul count with
     | .error e => .error (PricingError.ArithmeticError e)
     | .ok x => (.ok x : Except PricingError Amount)) =
      spec_mul_price price count := by
  unfold Amount.try_mul spec_mul_price
  by_cases h : price.val * count < U128_SIZE
  · simp only [dif_pos h]
  · simp only [dif_neg h]

theorem operation_price_user_eq (p : ResourceControlPolicy)
    (bytes : List (Fin 256)) :
    p.operation_price (.User bytes) =
      spec_linear_price p.operation_byte p.operation bytes.length :=
  try_mul_then_add_eq_spec p.operation_byte p.operation bytes.length

theorem message_price_user_eq (p : ResourceControlPolicy)
    (bytes : List (Fin 256)) :
    p.message_price (.User bytes) =
      spec_linear_price p.message_byte p.message bytes.length :=
  try_mul_then_add_eq_spec p.message_byte p.message bytes.length

/-- C1: for every policy, `operation_price` on the system variant returns the
flat `operation` price; on a user variant with an `n`-byte payload it returns
`operation_byte * n + operation` computed with checked multiplication then
checked addition, failing with an arithmetic error exactly when either
checked step overflows; `message_price` satisfies the same law with
`message_byte` and `message`. -/
theorem operation_message_price_law (p : ResourceControlPolicy)
    (bytes : List (Fin 256)) :
    p.operation_price .System = .ok p.operation ∧
    p.operation_price (.User bytes) =
      spec_linear_price p.operation_byte p.operation bytes.length ∧
    ((∃ e, p.operation_price (.User bytes) = .error e) ↔
      (¬ p.operation_byte.val * bytes.length < U128_SIZE ∨
       ¬ p.operation_byte.val * bytes.length + p.operation.val < U128_SIZE)) ∧
    p.message_price .System = .ok p.message ∧
    p.message_price (.User bytes) =
      spec_linear_price p.message_byte p.message bytes.length ∧
    ((∃ e, p.message_price (.User bytes) = .error e) ↔
      (¬ p.message_byte.val * bytes.length < U128_SIZE ∨
       ¬ p.message_byte.val * bytes.length + p.message.val < U128_SIZE)) := by
  have hop := operation_price_user_eq p bytes
  have hmsg := message_price_user_eq p bytes
  refine ⟨rfl, hop, ?_, rfl, hmsg, ?_⟩
  · rw [hop]
    unfold spec_linear_price
    by_cases h2 : p.operation_byte.val * bytes.length + p.operation.val < U128_SIZE
    · rw [dif_pos h2]
      constructor
      · rintro ⟨e, he⟩
        exact absurd he (by simp)
      · rintro (h1 | hx)
        · exact absurd (lt_of_le_of_lt (Nat.le_add_right _ _) h2) h1
        · exact absurd h2 hx
    · rw [dif_neg h2]
      exact ⟨fun _ => Or.inr h2, fun _ => ⟨_, rfl⟩⟩
  · rw [hmsg]
    unfold spec_linear_price
    by_cases h2 : p.message_byte.val * bytes.length + p.message.val < U128_SIZE
    · rw [dif_pos h2]
      constructor
      · rintro ⟨e, he⟩
        exact absurd he (by simp)
      · rintro (h1 | hx)
        · exact absurd (lt_of_le_of_lt (Nat.le_add_right _ _) h2) h1
        · exact absurd h2 hx
    · rw [dif_neg h2]
      exact ⟨fun _ => Or.inr h2, fun _ => ⟨_, rfl⟩⟩

/-- C10: for every policy, `operation_price` on a user operation with an
empty payload and `message_price` on a user message with an empty payload
always succeed and return exactly the flat `operation` (resp. `message`)
price, no matter how large `operation_byte` or `message_byte` is: the
checked multiplication by zero cannot overflow. -/
theorem empty_payload_flat_price (p : ResourceControlPolicy) :
    p.operation_price (.User []) = .ok p.operation ∧
    p.message_price (.User []) = .ok p.message := by
  constructor
  · rw [operation_price_user_eq p []]
    unfold spec_linear_price
    rw [dif_pos (by simpa using p.operation.lt)]
    exact congrArg Except.ok
      (Amount.val_injective _ _ (by simp))
  · rw [message_price_user_eq p []]
    unfold spec_linear_price
    rw [dif_pos (by simpa using p.message.lt)]
    exact congrArg Except.ok
      (Amount.val_injective _ _ (by simp))

/-- C6: default construction of `ResourceControlPolicy` yields a policy whose
ten price fields are all the zero/minimum `Amount` and whose two limit fields
are the maximum representable 64-bit value. -/
theorem default_policy_fields :
    ResourceControlPolicy.default.block.val = 0 ∧
    ResourceControlPolicy.default.fuel_unit.val = 0 ∧
    ResourceControlPolicy.default.read_operation.val = 0 ∧
    ResourceControlPolicy.default.byte_read.val = 0 ∧
    ResourceControlPolicy.default.byte_written.val = 0 ∧
    ResourceControlPolicy.default.byte_stored.val = 0 ∧
    ResourceControlPolicy.default.operation.val = 0 ∧
    ResourceControlPolicy.default.operation_byte.val = 0 ∧
    ResourceControlPolicy.default.message.val = 0 ∧
    ResourceControlPolicy.default.message_byte.val = 0 ∧
    ResourceControlPolicy.default.maximum_bytes_read_per_block = U64_MAX ∧
    ResourceControlPolicy.default.maximum_bytes_written_per_block = U64_MAX :=
  ⟨rfl, rfl, rfl, rfl, rfl, rfl, rfl, rfl, rfl, rfl, rfl, rfl⟩

/-- A concrete policy pricing fuel at 2 atto per unit, used as a test value. -/
def fuelPolicyTwo : ResourceControlPolicy :=
  { ResourceControlPolicy.default with fuel_unit := ⟨2, by decide⟩ }

/-- A concrete policy pricing fuel at 7 atto per unit, used as a test value. -/
def fuelPolicySeven : ResourceControlPolicy :=
  { ResourceControlPolicy.default with fuel_unit := ⟨7, by decide⟩ }

/-- C2: for every policy and balance, `remaining_fuel` equals the whole
number of fuel units the balance buys at price `fuel_unit`, computed as the
saturating integer division of the balance by `fuel_unit`; the result never
exceeds the maximum representable 64-bit count (saturating there when the
true quotient is larger), and the function is total (it never fails). -/
theorem remaining_fuel_saturating (p : ResourceControlPolicy)
    (balance : Amount) :
    p.remaining_fuel balance ≤ U64_MAX ∧
    (p.fuel_unit.val ≠ 0 →
      p.remaining_fuel balance = min (balance.val / p.fuel_unit.val) U64_MAX) := by
  constructor
  · unfold ResourceControlPolicy.remaining_fuel u64_try_from
    by_cases hq : balance.saturating_div p.fuel_unit ≤ U64_MAX
    · rw [if_pos hq]
      exact hq
    · rw [if_neg hq]
      exact le_refl _
  · intro h
    unfold ResourceControlPolicy.remaining_fuel Amount.saturating_div u64_try_from
    rw [if_neg h]
    by_cases hq : balance.val / p.fuel_unit.val ≤ U64_MAX
    · rw [if_pos hq]
      exact (Nat.min_eq_left hq).symm
    · rw [if_neg hq]
      exact (Nat.min_eq_right (le_of_not_le hq)).symm

theorem remaining_fuel_saturating_witness :
    fuelPolicyTwo.remaining_fuel ⟨7, by decide⟩ ≤ U64_MAX ∧
    fuelPolicyTwo.remaining_fuel ⟨7, by decide⟩ =
      min ((7 : Nat) / fuelPolicyTwo.fuel_unit.val) U64_MAX :=
  ⟨(remaining_fuel_saturating fuelPolicyTwo ⟨7, by decide⟩).1,
   (remaining_fuel_saturating fuelPolicyTwo ⟨7, by decide⟩).2 (by decide)⟩

/-- C3: for every balance, when the policy's `fuel_unit` price is zero,
`remaining_fuel` does not fail and returns the maximum representable 64-bit
count, treating zero-cost fuel as effectively unlimited. -/
theorem remaining_fuel_zero_unit (p : ResourceControlPolicy) (balance : Amount)
    (h : p.fuel_unit.val = 0) :
    p.remaining_fuel balance = U64_MAX := by
  unfold ResourceControlPolicy.remaining_fuel Amount.saturating_div u64_try_from
  rw [if_pos h, if_neg (by decide)]
  rfl

theorem remaining_fuel_zero_unit_witness :
    ResourceControlPolicy.default.fuel_unit.val = 0 ∧
    ResourceControlPolicy.default.remaining_fuel ⟨12345, by decide⟩ = U64_MAX :=
  ⟨rfl, remaining_fuel_zero_unit ResourceControlPolicy.default ⟨12345, by decide⟩ rfl⟩

/-- C8: for any policy whose `fuel_unit` is a non-zero atto amount `u` and a
balance equal to exactly `500 * u`, `remaining_fuel` returns exactly 500. -/
theorem remaining_fuel_exactly_500 (p : ResourceControlPolicy) (balance : Amount)
    (h0 : p.fuel_unit.val ≠ 0) (hb : balance.val = 500 * p.fuel_unit.val) :
    p.remaining_fuel balance = 500 := by
  unfold ResourceControlPolicy.remaining_fuel Amount.saturating_div u64_try_from
  rw [if_neg h0, hb, Nat.mul_div_cancel 500 (Nat.pos_of_ne_zero h0),
    if_pos (by decide)]
  rfl

theorem remaining_fuel_exactly_500_witness :
    fuelPolicySeven.fuel_unit.val ≠ 0 ∧
    (3500 : Nat) = 500 * fuelPolicySeven.fuel_unit.val ∧
    fuelPolicySeven.remaining_fuel ⟨3500, by decide⟩ = 500 :=
  ⟨by decide, by decide,
    remaining_fuel_exactly_500 fuelPolicySeven ⟨3500, by decide⟩
      (by decide) (by decide)⟩

theorem storage_num_reads_price_eq (p : ResourceControlPolicy) (c : Nat) :
    p.storage_num_reads_price c = spec_mul_price p.read_operation c :=
  try_mul_wrapped_eq_spec p.read_operation c

theorem storage_bytes_read_price_eq (p : ResourceControlPolicy) (c : Nat) :
    p.storage_bytes_read_price c = spec_mul_price p.byte_read c :=
  try_mul_wrapped_eq_spec p.byte_read c

theorem storage_bytes_written_price_eq (p : ResourceControlPolicy) (c : Nat) :
    p.storage_bytes_written_price c = spec_mul_price p.byte_written c :=
  try_mul_wrapped_eq_spec p.byte_written c

theorem storage_bytes_stored_price_eq (p : ResourceControlPolicy) (c : Nat) :
    p.storage_bytes_stored_price c = spec_mul_price p.byte_stored c :=
  try_mul_wrapped_eq_spec p.byte_stored c

theorem fuel_price_eq (p : ResourceControlPolicy) (c : Nat) :
    p.fuel_price c = spec_mul_price p.fuel_unit c :=
  try_mul_wrapped_eq_spec p.fuel_unit c

/-- The largest representable `Amount`, used as a test value. -/
def maxAmount : Amount := ⟨U128_SIZE - 1, by decide⟩

/-- A concrete policy pricing each payload byte at the largest representable
`Amount`, used as a test value for overflow. -/
def bytePricedMaxPolicy : ResourceControlPolicy :=
  { ResourceControlPolicy.default with
      operation_byte := maxAmount
      message_byte := maxAmount }

/-- C4: each multiplying pricing function agrees with the checked-product
specification: when the price-count product exceeds the maximum representable
`Amount` it returns an arithmetic-overflow error (never a wrapped, truncated
or saturated value), and when the product is representable it succeeds with
the exact product; likewise the byte term of `operation_price` and
`message_price` reports overflow when its product is unrepresentable. -/
theorem checked_mul_overflow_boundary (p : ResourceControlPolicy) (c : Nat)
    (bytes : List (Fin 256)) :
    p.storage_num_reads_price c = spec_mul_price p.read_operation c ∧
    p.storage_bytes_read_price c = spec_mul_price p.byte_read c ∧
    p.storage_bytes_written_price c = spec_mul_price p.byte_written c ∧
    p.storage_bytes_stored_price c = spec_mul_price p.byte_stored c ∧
    p.fuel_price c = spec_mul_price p.fuel_unit c ∧
    (¬ p.operation_byte.val * bytes.length < U128_SIZE →
      p.operation_price (.User bytes) =
        .error (PricingError.ArithmeticError .Overflow)) ∧
    (¬ p.message_byte.val * bytes.length < U128_SIZE →
      p.message_price (.User bytes) =
        .error (PricingError.ArithmeticError .Overflow)) := by
  refine ⟨storage_num_reads_price_eq p c, storage_bytes_read_price_eq p c,
    storage_bytes_written_price_eq p c, storage_bytes_stored_price_eq p c,
    fuel_price_eq p c, ?_, ?_⟩
  · intro h
    rw [operation_price_user_eq p bytes]
    unfold spec_linear_price
    exact dif_neg fun h2 => h (lt_of_le_of_lt (Nat.le_add_right _ _) h2)
  · intro h
    rw [message_price_user_eq p bytes]
    unfold spec_linear_price
    exact dif_neg fun h2 => h (lt_of_le_of_lt (Nat.le_add_right _ _) h2)

theorem checked_mul_overflow_boundary_witness :
    bytePricedMaxPolicy.operation_price (.User [0, 0]) =
      .error (PricingError.ArithmeticError .Overflow) ∧
    bytePricedMaxPolicy.message_price (.User [0, 0]) =
      .error (PricingError.ArithmeticError .Overflow) :=
  ⟨(checked_mul_overflow_boundary bytePricedMaxPolicy 0 [0, 0]).2.2.2.2.2.1
      (by decide),
   (checked_mul_overflow_boundary bytePricedMaxPolicy 0 [0, 0]).2.2.2.2.2.2
      (by decide)⟩

theorem spec_mul_price_of_lt (price : Amount) (c : Nat)
    (h : price.val * c < U128_SIZE) :
    spec_mul_price price c = .ok ⟨price.val * c, h⟩ := by
  unfold spec_mul_price
  exact dif_pos h

/-- C5: for every policy and every 64-bit count whose product with the unit
price is representable, the five per-count pricing functions return exactly
`read_operation * c`, `byte_read * c`, `byte_written * c`, `byte_stored * c`
and `fuel_unit * c` respectively, with no rounding loss. -/
theorem linear_prices_exact (p : ResourceControlPolicy) (c : Nat)
    (hc : c ≤ U64_MAX) :
    (∀ h : p.read_operation.val * c < U128_SIZE,
      p.storage_num_reads_price c = .ok ⟨p.read_operation.val * c, h⟩) ∧
    (∀ h : p.byte_read.val * c < U128_SIZE,
      p.storage_bytes_read_price c = .ok ⟨p.byte_read.val * c, h⟩) ∧
    (∀ h : p.byte_written.val * c < U128_SIZE,
      p.storage_bytes_written_price c = .ok ⟨p.byte_written.val * c, h⟩) ∧
    (∀ h : p.byte_stored.val * c < U128_SIZE,
      p.storage_bytes_stored_price c = .ok ⟨p.byte_stored.val * c, h⟩) ∧
    (∀ h : p.fuel_unit.val * c < U128_SIZE,
      p.fuel_price c = .ok ⟨p.fuel_unit.val * c, h⟩) :=
  ⟨fun h => (storage_num_reads_price_eq p c).trans (spec_mul_price_of_lt _ _ h),
   fun h => (storage_bytes_read_price_eq p c).trans (spec_mul_price_of_lt _ _ h),
   fun h => (storage_bytes_written_price_eq p c).trans (spec_mul_price_of_lt _ _ h),
   fun h => (storage_bytes_stored_price_eq p c).trans (spec_mul_price_of_lt _ _ h),
   fun h => (fuel_price_eq p c).trans (spec_mul_price_of_lt _ _ h)⟩

theorem linear_prices_exact_witness :
    ResourceControlPolicy.default.storage_bytes_read_price 3 =
      .ok ⟨ResourceControlPolicy.default.byte_read.val * 3, by decide⟩ :=
  (linear_prices_exact ResourceControlPolicy.default 3 (by decide)).2.1 (by decide)

theorem spec_mul_price_additive (price : Amount) (a b : Nat)
    (h : price.val * (a + b) < U128_SIZE) :
    ∃ x y z : Amount, spec_mul_price price a = .ok x ∧
      spec_mul_price price b = .ok y ∧
      spec_mul_price price (a + b) = .ok z ∧
      x.val + y.val = z.val := by
  have ha : price.val * a < U128_SIZE :=
    lt_of_le_of_lt (Nat.mul_le_mul_left _ (Nat.le_add_right a b)) h
  have hb : price.val * b < U128_SIZE :=
    lt_of_le_of_lt (Nat.mul_le_mul_left _ (Nat.le_add_left b a)) h
  exact ⟨⟨_, ha⟩, ⟨_, hb⟩, ⟨_, h⟩, spec_mul_price_of_lt price a ha,
    spec_mul_price_of_lt price b hb, spec_mul_price_of_lt price (a + b) h,
    (Nat.left_distrib price.val a b).symm⟩

/-- C7: per-item prices compose additively without precision loss: whenever
the price of the combined count `a + b` is representable, pricing `a` and `b`
separately succeeds and the two prices sum exactly to the price of `a + b`;
this holds for each of the five linear per-count pricing functions. -/
theorem prices_additive (p : ResourceControlPolicy) (a b : Nat) :
    (p.read_operation.val * (a + b) < U128_SIZE →
      ∃ x y z : Amount, p.storage_num_reads_price a = .ok x ∧
        p.storage_num_reads_price b = .ok y ∧
        p.storage_num_reads_price (a + b) = .ok z ∧ x.val + y.val = z.val) ∧
    (p.byte_read.val * (a + b) < U128_SIZE →
      ∃ x y z : Amount, p.storage_bytes_read_price a = .ok x ∧
        p.storage_bytes_read_price b = .ok y ∧
        p.storage_bytes_read_price (a + b) = .ok z ∧ x.val + y.val = z.val) ∧
    (p.byte_written.val * (a + b) < U128_SIZE →
      ∃ x y z : Amount, p.storage_bytes_written_price a = .ok x ∧
        p.storage_bytes_written_price b = .ok y ∧
        p.storage_bytes_written_price (a + b) = .ok z ∧ x.val + y.val = z.val) ∧
    (p.byte_stored.val * (a + b) < U128_SIZE →
      ∃ x y z : Amount, p.storage_bytes_stored_price a = .ok x ∧
        p.storage_bytes_stored_price b = .ok y ∧
        p.storage_bytes_stored_price (a + b) = .ok z ∧ x.val + y.val = z.val) ∧
    (p.fuel_unit.val * (a + b) < U128_SIZE →
      ∃ x y z : Amount, p.fuel_price a = .ok x ∧
        p.fuel_price b = .ok y ∧
        p.fuel_price (a + b) = .ok z ∧ x.val + y.val = z.val) := by
  refine ⟨fun h1 => ?_, fun h2 => ?_, fun h3 => ?_, fun h4 => ?_, fun h5 => ?_⟩
  · rw [storage_num_reads_price_eq p a, storage_num_reads_price_eq p b,
      storage_num_reads_price_eq p (a + b)]
    exact spec_mul_price_additive p.read_operation a b h1
  · rw [storage_bytes_read_price_eq p a, storage_bytes_read_price_eq p b,
      storage_bytes_read_price_eq p (a + b)]
    exact spec_mul_price_additive p.byte_read a b h2
  · rw [storage_bytes_written_price_eq p a, storage_bytes_written_price_eq p b,
      storage_bytes_written_price_eq p (a + b)]
    exact spec_mul_price_additive p.byte_written a b h3
  · rw [storage_bytes_stored_price_eq p a, storage_bytes_stored_price_eq p b,
      storage_bytes_stored_price_eq p (a + b)]
    exact spec_mul_price_additive p.byte_stored a b h4
  · rw [fuel_price_eq p a, fuel_price_eq p b, fuel_price_eq p (a + b)]
    exact spec_mul_price_additive p.fuel_unit a b h5

/-- A concrete policy with a cheap byte-read price and the fuel unit at the
largest representable `Amount`, used as a test value: byte-read additivity
holds even though the fuel product overflows at the same counts. -/
def cheapReadMaxFuelPolicy : ResourceControlPolicy :=
  { ResourceControlPolicy.default with
      byte_read := ⟨3, by decide⟩
      fuel_unit := maxAmount }

theorem prices_additive_witness :
    ∃ x y z : Amount, cheapReadMaxFuelPolicy.storage_bytes_read_price 1 = .ok x ∧
      cheapReadMaxFuelPolicy.storage_bytes_read_price 2 = .ok y ∧
      cheapReadMaxFuelPolicy.storage_bytes_read_price (1 + 2) = .ok z ∧
      x.val + y.val = z.val :=
  (prices_additive cheapReadMaxFuelPolicy 1 2).2.1 (by decide)

/-- C9: every pricing function of `ResourceControlPolicy` is deterministic
and side-effect-free: evaluating the same function on the same policy with
identical inputs twice yields identical outputs, and no call mutates the
policy (each function consumes the policy by shared read-only value and
returns only its price). -/
theorem pricing_functions_deterministic (p : ResourceControlPolicy)
    (op : Operation) (msg : Message) (c1 c2 c3 c4 f : Nat) (balance : Amount) :
    p.block_price = p.block_price ∧
    p.operation_price op = p.operation_price op ∧
    p.message_price msg = p.message_price msg ∧
    p.storage_num_reads_price c1 = p.storage_num_reads_price c1 ∧
    p.storage_bytes_read_price c2 = p.storage_bytes_read_price c2 ∧
    p.storage_bytes_written_price c3 = p.storage_bytes_written_price c3 ∧
    p.storage_bytes_stored_price c4 = p.storage_bytes_stored_price c4 ∧
    p.fuel_price f = p.fuel_price f ∧
    p.remaining_fuel balance = p.remaining_fuel balance :=
  ⟨rfl, rfl, rfl, rfl, rfl, rfl, rfl, rfl, rfl⟩

end LineraPolicy
